import Mathlib

/-!
Verification of the rtags project indexing core (src/src/Project.cpp and the
project headers).  The development shallowly embeds the data model and the
operations the claims are about: persistent tables become association lists,
fileIds and timestamps become natural numbers, sets become `Finset`s, and the
C++ member functions become pure Lean functions mirroring the source line by
line.  Definitions that come from repository files that are not present under
src/ (Source.h, RTags.h, RTags.cpp, IndexerJob.h) are modelled from the spec
and say so in their doc comments.
-/

namespace Rtags

/-- Association-list lookup, modelling `Map::value` / `Hash::value` /
`DB::find` returning a valid iterator. -/
def alookup {κ ν : Type} [DecidableEq κ] (k : κ) : List (κ × ν) → Option ν
  | [] => none
  | kv :: rest => if kv.1 = k then some kv.2 else alookup k rest

/-- Association-list store, modelling `DB::set` / `Map::operator[] =` which
replaces the binding for an existing key and appends a new one otherwise. -/
def aset {κ ν : Type} [DecidableEq κ] (k : κ) (v : ν) : List (κ × ν) → List (κ × ν)
  | [] => [(k, v)]
  | kv :: rest => if kv.1 = k then (k, v) :: rest else kv :: aset k v rest

/-- Association-list erase, modelling `Hash::remove` / iterator `erase` (a
no-op when the key is absent). -/
def aerase {κ ν : Type} [DecidableEq κ] (k : κ) : List (κ × ν) → List (κ × ν)
  | [] => []
  | kv :: rest => if kv.1 = k then rest else kv :: aerase k rest

/-- Modelling `Hash::take`: return the value stored under the key (if any)
and the map with that binding removed. -/
def atake {κ ν : Type} [DecidableEq κ] (k : κ) (l : List (κ × ν)) :
    Option ν × List (κ × ν) :=
  (alookup k l, aerase k l)

/-- Source (compile invocation).  Modelled from the spec: Source.h is not in
src/; the spec fixes the attributes `fileId`, `buildRootId`, compile
arguments, `flags` (bit set including `Active`) and the `parsed` timestamp.
`args` stands for the compile-argument list compared by `compareArguments`. -/
structure Source where
  fileId : Nat
  buildRootId : Nat
  flags : Nat
  parsed : Nat
  args : Nat
deriving DecidableEq

/-- Modelled from the spec: `Source::Active` is one bit of the `flags` bit
set (Source.h is not in src/); the model places it in bit 0. -/
def activeBit : Nat := 1

/-- Test of the `Active` bit of a flags word. -/
def hasActive (flags : Nat) : Bool := flags % 2 = 1

/-- Modelling `flags |= Source::Active`. -/
def setActive (flags : Nat) : Nat := Nat.lor flags 1

/-- Modelling `flags &= ~Source::Active`. -/
def clearActive (flags : Nat) : Nat := flags - flags % 2

/-- Modelled from the spec: `Source::key(fileId, buildRootId)` (Source.h is
not in src/) packs the two 32-bit ids into one 64-bit value, fileId-major, so
that all sources of one fileId are contiguous and ordered by buildRootId. -/
def sourceKey (fileId buildRootId : Nat) : Nat :=
  fileId % 2 ^ 32 * 2 ^ 32 + buildRootId % 2 ^ 32

/-- Modelled from the spec: `Source::decodeKey`, fileId component. -/
def decodeFileId (key : Nat) : Nat := key / 2 ^ 32

/-- Modelled from the spec: `Source::decodeKey`, buildRootId component. -/
def decodeBuildId (key : Nat) : Nat := key % 2 ^ 32

/-- Loop of `markActive` (Project.cpp:512-529).  The iterator is the suffix
of the Sources table starting at the caller's `lower_bound`; each step
decodes the key, stops at a foreign fileId, recomputes `flags` into a local
variable, compares, and calls `setValue(source)` — where `source` is the
unmodified copy read from the iterator, the recomputed `flags` never having
been stored into it.  Both branches therefore write back `s` itself. -/
def markActiveLoop (fileId buildId : Nat) : List (Nat × Source) → List (Nat × Source)
  | [] => []
  | (k, s) :: rest =>
    let f := decodeFileId k
    let b := decodeBuildId k
    if f ≠ fileId then (k, s) :: rest
    else
      let flags := if b = buildId then setActive s.flags else clearActive s.flags
      let written := if s.flags ≠ flags then s else s
      (k, written) :: markActiveLoop fileId buildId rest

/-- Embeds `markActive` (Project.cpp:509-530): reads the fileId from the
first row under the iterator, then runs the rewrite loop over the contiguous
key range of that fileId. -/
def markActive (buildId : Nat) : List (Nat × Source) → List (Nat × Source)
  | [] => []
  | (k, s) :: rest => markActiveLoop s.fileId buildId ((k, s) :: rest)

/-- Helper: `markActiveLoop` writes every row back unchanged. -/
theorem markActiveLoop_eq (fileId buildId : Nat) :
    ∀ l : List (Nat × Source), markActiveLoop fileId buildId l = l := by
  intro l
  induction l with
  | nil => rfl
  | cons kv rest ih =>
    obtain ⟨k, s⟩ := kv
    simp only [markActiveLoop]
    split
    · rfl
    · simp [ih]

/-- Helper: `markActive` is the identity on the Sources range. -/
theorem markActive_eq (buildId : Nat) :
    ∀ l : List (Nat × Source), markActive buildId l = l := by
  intro l
  cases l with
  | nil => rfl
  | cons kv rest => obtain ⟨k, s⟩ := kv; simpa [markActive] using markActiveLoop_eq s.fileId buildId _

/-- Concrete Sources range for the C3 failing input: a single row for
fileId 7, buildRootId 3, whose flags do not carry `Active`. -/
def c3Range : List (Nat × Source) :=
  [(sourceKey 7 3, { fileId := 7, buildRootId := 3, flags := 0, parsed := 0, args := 0 })]

/-- C3: markActive leaves every Source's flags untouched — the recomputed
flags word is compared against the stored one but never assigned into the
written Source, so on the failing input the row whose buildRootId equals the
chosen buildId still lacks `Active` afterwards, contradicting the claim that
exactly that row carries the flag. -/
theorem markActive_does_not_set_active :
    markActive 3 c3Range = c3Range ∧
      hasActive ((alookup (sourceKey 7 3) (markActive 3 c3Range)).getD
        { fileId := 7, buildRootId := 3, flags := 0, parsed := 0, args := 0 }).flags = false := by
  constructor
  · exact markActive_eq 3 c3Range
  · rw [markActive_eq 3 c3Range]
    decide

/-- Loop of the template `writeReferencesOrTargets` (Project.cpp:991-1018),
`Set`-valued instantiation (the References table).  `wasEmpty` is captured
from the table before the loop.  For a key already present, the union of the
stored value and the incoming one is computed into `vals` together with the
count of genuinely new elements, but the write that follows stores
`val.second` — the incoming value — and `vals` is discarded. -/
def writeReferencesOrTargetsGo {κ ν : Type} [DecidableEq κ] [DecidableEq ν]
    (wasEmpty : Bool) : List (κ × Finset ν) → List (κ × Finset ν) → Nat →
    List (κ × Finset ν) × Nat
  | [], db, ret => (db, ret)
  | val :: m, db, ret =>
    if wasEmpty then
      writeReferencesOrTargetsGo wasEmpty m (aset val.1 val.2 db) (ret + 1)
    else
      match alookup val.1 db with
      | none => writeReferencesOrTargetsGo wasEmpty m (aset val.1 val.2 db) (ret + 1)
      | some cur =>
        let count := (val.2 \ cur).card
        if count ≠ 0 then
          writeReferencesOrTargetsGo wasEmpty m (aset val.1 val.2 db) (ret + 1)
        else
          writeReferencesOrTargetsGo wasEmpty m db ret

/-- Embeds `writeReferencesOrTargets` (Project.cpp:991-1018) for `Set`-valued
tables; returns the table after the commit and the write count. -/
def writeReferencesOrTargets {κ ν : Type} [DecidableEq κ] [DecidableEq ν]
    (m db : List (κ × Finset ν)) : List (κ × Finset ν) × Nat :=
  writeReferencesOrTargetsGo db.isEmpty m db 0

/-- C2: at the failing input — stored value of key 0 is the singleton 1,
incoming value the singleton 2 — the commit writes the incoming value, not
the computed union, so the stored value afterwards is the singleton 2 where
the claim demands the two-element union.  The union is computed only for the
strictly-larger write-back test. -/
theorem writeReferencesOrTargets_drops_existing :
    writeReferencesOrTargets [((0 : Nat), ({2} : Finset Nat))] [(0, {1})]
      = ([(0, {2})], 1) ∧ ({1, 2} : Finset Nat) ≠ {2} := by
  constructor
  · decide
  · decide

/-- The WatcherDirty detector's `isDirty` (Project.cpp:211-230).  The
constructor (Project.cpp:204-209) seeds `mModified[m] = dependencies[m]` for
every modified fileId `m`; the loop of `isDirty(S)` accumulates `ret` over
`mModified`, setting it as soon as some modified `m` has `S.fileId` in its
dependency set and `m` is either gone (`lastModified(m) == 0`) or newer than
`S.parsed` — i.e. it decides exactly that existential. -/
def watcherIsDirty (deps : Nat → Finset Nat) (lastModified : Nat → Nat)
    (modified : Finset Nat) (source : Source) : Bool :=
  decide (∃ m ∈ modified, source.fileId ∈ deps m ∧
    (lastModified m = 0 ∨ source.parsed < lastModified m))

/-- C6 counterexample input: file 1 was modified and has vanished
(lastModified = 0); translation unit 2 depends on it. -/
def c6Deps : Nat → Finset Nat := fun m => if m = 1 then {2} else ∅

/-- C6 counterexample: every watched file reads as vanished. -/
def c6LastMod : Nat → Nat := fun _ => 0

/-- C6 counterexample source row: fileId 2, parsed at time 5. -/
def c6Source : Source := { fileId := 2, buildRootId := 0, flags := 0, parsed := 5, args := 0 }

/-- C6: the claim's characterisation fails at a vanished dependency —
`isDirty` returns true for a source whose modified dependency has
`lastModified = 0`, while no modified fileId satisfies the claim's
`lastModified(m) > S.parsed`. -/
theorem watcherIsDirty_gone_file_counterexample :
    watcherIsDirty c6Deps c6LastMod {1} c6Source = true ∧
      ¬ ∃ m ∈ ({1} : Finset Nat), c6Source.fileId ∈ c6Deps m ∧ c6Source.parsed < c6LastMod m := by
  constructor
  · decide
  · decide

/-- C6 amended: `isDirty(S)` is true iff some modified fileId `m` has
`S.fileId ∈ Dependencies[m]` and `lastModified(m)` is zero (the file is
gone) or exceeds `S.parsed`. -/
theorem watcherIsDirty_iff (deps : Nat → Finset Nat) (lastModified : Nat → Nat)
    (modified : Finset Nat) (source : Source) :
    watcherIsDirty deps lastModified modified source = true ↔
      ∃ m ∈ modified, source.fileId ∈ deps m ∧
        (lastModified m = 0 ∨ source.parsed < lastModified m) := by
  simp [watcherIsDirty]

/-- Mode argument of `matchSymbolName` (Project.cpp:1123-1126). -/
inductive MatchSymbolNameMode
  | maybeFunction
  | nonFunction
deriving DecidableEq

/-- Modelling `String::indexOf(pattern)`: the first index at which the
pattern occurs, if any. -/
def strIndexOf (pat : List Char) : List Char → Option Nat
  | [] => if pat = [] then some 0 else none
  | c :: rest =>
    if pat.isPrefixOf (c :: rest) then some 0
    else (strIndexOf pat rest).map (· + 1)

/-- Tail of `matchSymbolName` (Project.cpp:1162-1166): the needle must be a
byte-wise prefix of the haystack starting at `start` (strncmp), and must
either consume the rest of the haystack or be followed by a parenthesis. -/
def matchSymbolNameTail (needle haystack : List Char) (start : Nat) : Bool :=
  needle.isPrefixOf (haystack.drop start) &&
    (decide (haystack.length - start = needle.length) ||
      decide (haystack.get? (start + needle.length) = some '('))

/-- Embeds `matchSymbolName` (Project.cpp:1140-1167).  In `MaybeFunction`
mode an exact match wins immediately; otherwise matching restarts two bytes
into the first occurrence of the sentinel of a symbol nested inside a
function signature. -/
def matchSymbolName (needle haystack : List Char) : MatchSymbolNameMode → Bool
  | .maybeFunction =>
    if needle = haystack then true
    else
      let start :=
        match strIndexOf [')', ':', ':'] haystack with
        | some i => i + 2
        | none => 0
      matchSymbolNameTail needle haystack start
  | .nonFunction => matchSymbolNameTail needle haystack 0

/-- C8 counterexample: with `NonFunction` the lookup of "foo" against
"foo(int)::bar" starts at index 0, "foo" is a prefix and is followed by a
parenthesis, so the function returns true — the claim says false. -/
theorem matchSymbolName_nonFunction_counterexample :
    matchSymbolName (String.toList ("foo")) (String.toList ("foo(int)::bar"))
      MatchSymbolNameMode.nonFunction = true := by
  decide

/-- C8 amended: the four boundary evaluations as the code computes them —
`MaybeFunction` on "foo(int)::bar" is false, `NonFunction` on the same
haystack is true, and both remaining cases are true. -/
theorem matchSymbolName_boundary_cases :
    matchSymbolName (String.toList ("foo")) (String.toList ("foo(int)::bar"))
        MatchSymbolNameMode.maybeFunction = false ∧
      matchSymbolName (String.toList ("foo")) (String.toList ("foo(int)::bar"))
        MatchSymbolNameMode.nonFunction = true ∧
      matchSymbolName (String.toList ("foo")) (String.toList ("foo"))
        MatchSymbolNameMode.maybeFunction = true ∧
      matchSymbolName (String.toList ("foo")) (String.toList ("foo"))
        MatchSymbolNameMode.nonFunction = true ∧
      matchSymbolName (String.toList ("foo")) (String.toList ("foo(int)"))
        MatchSymbolNameMode.maybeFunction = true := by
  refine ⟨by decide, by decide, by decide, by decide, by decide⟩

/-- Location: triple (fileId, line, column), ordered lexicographically. -/
structure Loc where
  fileId : Nat
  line : Nat
  column : Nat
deriving DecidableEq

/-- Lexicographic strict order on Locations (operator< of Location). -/
def locLt (a b : Loc) : Bool :=
  if a.fileId ≠ b.fileId then decide (a.fileId < b.fileId)
  else if a.line ≠ b.line then decide (a.line < b.line)
  else decide (a.column < b.column)

/-- Characterisation of `locLt`. -/
theorem locLt_iff (a b : Loc) :
    locLt a b = true ↔
      a.fileId < b.fileId ∨ (a.fileId = b.fileId ∧
        (a.line < b.line ∨ (a.line = b.line ∧ a.column < b.column))) := by
  unfold locLt
  split_ifs with h1 h2 <;> simp <;> omega

/-- Helper: `locLt` is asymmetric. -/
theorem locLt_asymm {a b : Loc} (h : locLt a b = true) : locLt b a = false := by
  rw [locLt_iff] at h
  rcases Bool.eq_false_or_eq_true (locLt b a) with ht | hf
  · rw [locLt_iff] at ht; omega
  · exact hf

/-- Helper: `locLt` is transitive. -/
theorem locLt_trans {a b c : Loc} (h1 : locLt a b = true) (h2 : locLt b c = true) :
    locLt a c = true := by
  rw [locLt_iff] at h1 h2 ⊢
  omega

/-- Helper: mutually incomparable Locations are equal. -/
theorem locLt_conn {a b : Loc} (h1 : locLt a b = false) (h2 : locLt b a = false) : a = b := by
  have n1 : ¬ locLt a b = true := by simp [h1]
  have n2 : ¬ locLt b a = true := by simp [h2]
  rw [locLt_iff] at n1 n2
  cases a; cases b
  simp only [Loc.mk.injEq]
  simp only at n1 n2
  omega

/-- Per-location symbol record as `Project::sort` consumes it: the cursor
kind, the raw `definition` flag of CursorInfo.h, and the outcome of the
`bestTarget()` chase consulted by the `Sort_DeclarationOnly` branch.  The
chase itself lives in CursorInfo.cpp; only the boolean "the best target
exists and is not null" reaches `sort`, so it is carried as a field the
theorems quantify over. -/
structure SymRec where
  kind : Nat
  definition : Bool
  bestTargetNonNullDecl : Bool
deriving DecidableEq

/-- Embeds `CursorInfo::isDefinition` (CursorInfo.h:131-133): definition, or
an enum constant (CXCursor_EnumConstantDecl = 7). -/
def isDefinitionRec (r : SymRec) : Bool := r.kind == 7 || r.definition

/-- Sorted-cursor record produced by `Project::sort`: location, definition
flag and kind (RTags::SortedCursor). -/
structure SortedCursor where
  location : Loc
  isDefinition : Bool
  kind : Nat
deriving DecidableEq

/-- Modelled from the spec: the comparator of RTags::SortedCursor (RTags.h is
not in src/) orders by kind-rank first (higher rank first), then by
location; the rank function itself is a parameter, so every theorem below
holds for the actual rank table. -/
def cursorLt (rank : Nat → Bool → Nat) (a b : SortedCursor) : Bool :=
  let me := rank a.kind a.isDefinition
  let him := rank b.kind b.isDefinition
  if me ≠ him then decide (him < me) else locLt a.location b.location

/-- Characterisation of `cursorLt`. -/
theorem cursorLt_iff (rank : Nat → Bool → Nat) (a b : SortedCursor) :
    cursorLt rank a b = true ↔
      rank b.kind b.isDefinition < rank a.kind a.isDefinition ∨
        (rank a.kind a.isDefinition = rank b.kind b.isDefinition ∧
          locLt a.location b.location = true) := by
  unfold cursorLt
  dsimp only
  split_ifs with h
  · simp only [decide_eq_true_eq]
    constructor
    · exact Or.inl
    · rintro (hlt | ⟨he, _⟩)
      · exact hlt
      · exact absurd he h
  · push_neg at h
    constructor
    · intro hl
      exact Or.inr ⟨h, hl⟩
    · rintro (hlt | ⟨_, hl⟩)
      · omega
      · exact hl

/-- Helper: `cursorLt` is asymmetric. -/
theorem cursorLt_asymm {rank : Nat → Bool → Nat} {a b : SortedCursor}
    (h : cursorLt rank a b = true) : cursorLt rank b a = false := by
  rcases Bool.eq_false_or_eq_true (cursorLt rank b a) with ht | hf
  swap
  · exact hf
  · rw [cursorLt_iff] at h ht
    rcases h with h | ⟨he, hl⟩ <;> rcases ht with ht | ⟨hte, htl⟩
    · omega
    · omega
    · omega
    · rw [locLt_asymm hl] at htl; cases htl

/-- Helper: from non-strictness and distinct locations, strictness the other
way around. -/
theorem cursorLt_of_not_of_ne {rank : Nat → Bool → Nat} {a b : SortedCursor}
    (h : cursorLt rank b a = false) (hne : a.location ≠ b.location) :
    cursorLt rank a b = true := by
  rcases Bool.eq_false_or_eq_true (cursorLt rank a b) with ht | hf
  · exact ht
  · exfalso
    have h1 : ¬ cursorLt rank a b = true := by simp [hf]
    have h2 : ¬ cursorLt rank b a = true := by simp [h]
    rw [cursorLt_iff] at h1 h2
    rcases Nat.lt_trichotomy (rank a.kind a.isDefinition) (rank b.kind b.isDefinition)
      with hr | hr | hr
    · exact h2 (Or.inl hr)
    · have hla : locLt a.location b.location = false := by
        rcases Bool.eq_false_or_eq_true (locLt a.location b.location) with t | f
        · exact absurd (Or.inr ⟨hr, t⟩) h1
        · exact f
      have hlb : locLt b.location a.location = false := by
        rcases Bool.eq_false_or_eq_true (locLt b.location a.location) with t | f
        · exact absurd (Or.inr ⟨hr.symm, t⟩) h2
        · exact f
      exact hne (locLt_conn hla hlb)
    · exact h1 (Or.inl hr)

/-- Helper: negative transitivity of `cursorLt`. -/
theorem cursorLt_negtrans {rank : Nat → Bool → Nat} {a b c : SortedCursor}
    (h1 : cursorLt rank a b = false) (h2 : cursorLt rank b c = false) :
    cursorLt rank a c = false := by
  rcases Bool.eq_false_or_eq_true (cursorLt rank a c) with ht | hf
  swap
  · exact hf
  · exfalso
    have n1 : ¬ cursorLt rank a b = true := by simp [h1]
    have n2 : ¬ cursorLt rank b c = true := by simp [h2]
    rw [cursorLt_iff] at n1 n2 ht
    rcases ht with ht | ⟨hte, htl⟩
    · omega
    · rcases Nat.lt_trichotomy (rank a.kind a.isDefinition) (rank b.kind b.isDefinition)
        with hr | hr | hr
      · omega
      · have hab : locLt a.location b.location = false := by
          rcases Bool.eq_false_or_eq_true (locLt a.location b.location) with t | f
          · exact absurd (Or.inr ⟨hr, t⟩) n1
          · exact f
        have hbc : locLt b.location c.location = false := by
          rcases Bool.eq_false_or_eq_true (locLt b.location c.location) with t | f
          · exact absurd (Or.inr ⟨by omega, t⟩) n2
          · exact f
        rcases Bool.eq_false_or_eq_true (locLt b.location a.location) with t | f
        swap
        · have := locLt_conn hab f
          rw [this] at htl
          exact absurd htl (by simp [hbc])
        · exact absurd (locLt_trans t htl) (by simp [hbc])
      · omega

/-- Modelled from the spec: the kind-rank table of RTags::SortedCursor
(RTags.h is not in src/): class-like kinds rank highest, then function-like,
then variables and fields, and a definition outranks non-definitions. -/
def defaultRank (kind : Nat) (isDefinition : Bool) : Nat :=
  let val :=
    if kind = 2 ∨ kind = 4 ∨ kind = 31 then 10
    else if kind = 8 ∨ kind = 21 ∨ kind = 24 ∨ kind = 30 then 5
    else if kind = 6 ∨ kind = 9 then 2
    else 1
  if isDefinition then val + 100 else val

/-- Non-strict relation induced by the strict comparator for the ascending
`std::sort(sorted.begin(), sorted.end())` call: `a` may precede `b` iff
`b < a` does not hold. -/
def ascLE (rank : Nat → Bool → Nat) (a b : SortedCursor) : Prop :=
  cursorLt rank b a = false

/-- Non-strict relation induced by `std::greater<SortedCursor>` for the
`Sort_Reverse` call: `a` may precede `b` iff `a < b` does not hold. -/
def descLE (rank : Nat → Bool → Nat) (a b : SortedCursor) : Prop :=
  cursorLt rank a b = false

instance (rank : Nat → Bool → Nat) : DecidableRel (ascLE rank) := fun a b => by
  unfold ascLE; infer_instance

instance (rank : Nat → Bool → Nat) : DecidableRel (descLE rank) := fun a b => by
  unfold descLE; infer_instance

instance (rank : Nat → Bool → Nat) : IsTotal SortedCursor (ascLE rank) where
  total a b := by
    unfold ascLE
    rcases Bool.eq_false_or_eq_true (cursorLt rank b a) with ht | hf
    · exact Or.inr (cursorLt_asymm ht)
    · exact Or.inl hf

instance (rank : Nat → Bool → Nat) : IsTrans SortedCursor (ascLE rank) where
  trans a b c h1 h2 := cursorLt_negtrans h2 h1

instance (rank : Nat → Bool → Nat) : IsTotal SortedCursor (descLE rank) where
  total a b := by
    unfold descLE
    rcases Bool.eq_false_or_eq_true (cursorLt rank a b) with ht | hf
    · exact Or.inr (cursorLt_asymm ht)
    · exact Or.inl hf

instance (rank : Nat → Bool → Nat) : IsTrans SortedCursor (descLE rank) where
  trans a b c h1 h2 := cursorLt_negtrans h1 h2

/-- Record-building loop of `Project::sort` (Project.cpp:1200-1213): each
location becomes a SortedCursor; a location found in Symbols carries the
record's definition flag and kind, and under `Sort_DeclarationOnly` a
definition whose best target is a non-null declaration is skipped; a
location absent from Symbols yields the default record (kind
CXCursor_FirstInvalid = 70). -/
def buildSorted (symbols : Loc → Option SymRec) (flags : Nat) :
    List Loc → List SortedCursor
  | [] => []
  | loc :: rest =>
    match symbols loc with
    | none =>
      { location := loc, isDefinition := false, kind := 70 } ::
        buildSorted symbols flags rest
    | some ci =>
      if flags &&& 1 ≠ 0 ∧ isDefinitionRec ci = true ∧ ci.bestTargetNonNullDecl = true then
        buildSorted symbols flags rest
      else
        { location := loc, isDefinition := isDefinitionRec ci, kind := ci.kind } ::
          buildSorted symbols flags rest

/-- Embeds `Project::sort` (Project.cpp:1196-1221).  The final
`std::sort` call is modelled by `List.insertionSort`: the comparator is a
strict total order on the records built from a `Set<Location>` (no two
records share a location), so every comparison sort returns this one
sorted permutation. -/
def Project.sort (rank : Nat → Bool → Nat) (symbols : Loc → Option SymRec)
    (locations : List Loc) (flags : Nat) : List SortedCursor :=
  let sorted := buildSorted symbols flags locations
  if flags &&& 2 ≠ 0 then List.insertionSort (descLE rank) sorted
  else List.insertionSort (ascLE rank) sorted

/-- Helper: the record-building loop only consults bit 0 of the flags. -/
theorem buildSorted_and_one (symbols : Loc → Option SymRec) {flags flags2 : Nat}
    (h : flags &&& 1 = flags2 &&& 1) :
    ∀ l : List Loc, buildSorted symbols flags l = buildSorted symbols flags2 l := by
  intro l
  induction l with
  | nil => rfl
  | cons loc rest ih =>
    simp only [buildSorted]
    cases symbols loc with
    | none => simp [ih]
    | some ci => rw [h]; split <;> simp [ih]

/-- Helper: every record built comes from an input location. -/
theorem buildSorted_loc_mem (symbols : Loc → Option SymRec) (flags : Nat) :
    ∀ l : List Loc, ∀ c ∈ buildSorted symbols flags l, c.location ∈ l := by
  intro l
  induction l with
  | nil => intro c hc; cases hc
  | cons loc rest ih =>
    intro c hc
    cases hh : symbols loc with
    | none =>
      simp only [buildSorted, hh] at hc
      rcases List.mem_cons.mp hc with hc | hc
      · subst hc; exact List.mem_cons_self _ _
      · exact List.mem_cons_of_mem _ (ih c hc)
    | some ci =>
      simp only [buildSorted, hh] at hc
      split at hc
      · exact List.mem_cons_of_mem _ (ih c hc)
      · rcases List.mem_cons.mp hc with hc | hc
        · subst hc; exact List.mem_cons_self _ _
        · exact List.mem_cons_of_mem _ (ih c hc)

/-- Helper: distinct input locations yield records with pairwise distinct
locations. -/
theorem buildSorted_pairwise (symbols : Loc → Option SymRec) (flags : Nat) :
    ∀ l : List Loc, l.Pairwise (· ≠ ·) →
      (buildSorted symbols flags l).Pairwise (fun x y => x.location ≠ y.location) := by
  intro l
  induction l with
  | nil => intro _; exact List.Pairwise.nil
  | cons loc rest ih =>
    intro hp
    rcases List.pairwise_cons.mp hp with ⟨hhead, htail⟩
    have hne : ∀ c ∈ buildSorted symbols flags rest, loc ≠ c.location := by
      intro c hc
      exact hhead c.location (buildSorted_loc_mem symbols flags rest c hc)
    cases hh : symbols loc with
    | none =>
      simp only [buildSorted, hh]
      exact List.pairwise_cons.mpr ⟨fun c hc => hne c hc, ih htail⟩
    | some ci =>
      simp only [buildSorted, hh]
      split
      · exact ih htail
      · exact List.pairwise_cons.mpr ⟨fun c hc => hne c hc, ih htail⟩

/-- Helper: combine two pairwise facts pointwise. -/
theorem pairwise_combine {α : Type} {R S T : α → α → Prop}
    (h : ∀ a b, R a b → S a b → T a b) :
    ∀ {l : List α}, l.Pairwise R → l.Pairwise S → l.Pairwise T
  | [], _, _ => List.Pairwise.nil
  | _ :: _, hR, hS => by
    rcases List.pairwise_cons.mp hR with ⟨hRa, hRl⟩
    rcases List.pairwise_cons.mp hS with ⟨hSa, hSl⟩
    exact List.pairwise_cons.mpr
      ⟨fun b hb => h _ b (hRa b hb) (hSa b hb), pairwise_combine h hRl hSl⟩

/-- C9: for any rank table, symbol table and duplicate-free location set,
sorting with `Sort_Reverse` returns exactly the reversal of the
default-flags sort. -/
theorem sort_reverse_eq (rank : Nat → Bool → Nat) (symbols : Loc → Option SymRec)
    (locations : List Loc) (h : locations.Nodup) :
    Project.sort rank symbols locations 2 =
      (Project.sort rank symbols locations 0).reverse := by
  have hb2 : buildSorted symbols 2 locations = buildSorted symbols 0 locations :=
    buildSorted_and_one symbols (by decide) locations
  simp only [Project.sort, hb2]
  norm_num
  set nodes := buildSorted symbols 0 locations with hnodes
  set A := List.insertionSort (ascLE rank) nodes with hA
  set D := List.insertionSort (descLE rank) nodes with hD
  have hPn : nodes.Pairwise (fun x y => x.location ≠ y.location) :=
    buildSorted_pairwise symbols 0 locations h
  have hSortA : A.Pairwise (ascLE rank) := List.sorted_insertionSort (ascLE rank) nodes
  have hSortD : D.Pairwise (descLE rank) := List.sorted_insertionSort (descLE rank) nodes
  have hsymm : ∀ {x y : SortedCursor}, x.location ≠ y.location → y.location ≠ x.location :=
    fun hxy => hxy.symm
  have hPA : A.Pairwise (fun x y => x.location ≠ y.location) :=
    ((List.perm_insertionSort (ascLE rank) nodes).pairwise_iff hsymm).mpr hPn
  have hPD : D.Pairwise (fun x y => x.location ≠ y.location) :=
    ((List.perm_insertionSort (descLE rank) nodes).pairwise_iff hsymm).mpr hPn
  have strictA : A.Pairwise (fun x y => cursorLt rank x y = true) :=
    pairwise_combine (fun a b h1 h2 => cursorLt_of_not_of_ne h1 h2) hSortA hPA
  have strictD : D.Pairwise (fun x y => cursorLt rank y x = true) :=
    pairwise_combine (fun a b h1 h2 => cursorLt_of_not_of_ne h1 h2.symm) hSortD hPD
  have hRev : D.reverse.Pairwise (fun x y => cursorLt rank x y = true) :=
    List.pairwise_reverse.mpr strictD
  have hperm : List.Perm D.reverse A :=
    (D.reverse_perm).trans ((List.perm_insertionSort (descLE rank) nodes).trans
      (List.perm_insertionSort (ascLE rank) nodes).symm)
  haveI : IsAntisymm SortedCursor (fun x y => cursorLt rank x y = true) :=
    ⟨fun a b h1 h2 => absurd h2 (by simp [cursorLt_asymm h1])⟩
  have hEq : D.reverse = A := List.eq_of_perm_of_sorted hperm hRev strictA
  calc D = D.reverse.reverse := (List.reverse_reverse D).symm
    _ = A.reverse := by rw [hEq]

/-- C9 witness: a concrete two-location run of `Project::sort`, with the
hypothesis of distinct locations discharged by computation. -/
theorem sort_reverse_eq_witness :
    Project.sort defaultRank (fun _ => none) [⟨1, 1, 0⟩, ⟨1, 2, 0⟩] 2 =
      (Project.sort defaultRank (fun _ => none) [⟨1, 1, 0⟩, ⟨1, 2, 0⟩] 0).reverse :=
  sort_reverse_eq defaultRank (fun _ => none) [⟨1, 1, 0⟩, ⟨1, 2, 0⟩] (by decide)

/-- Strings (USR strings, symbol names) are modelled as character lists. -/
abbrev Str := List Char

/-- Modelled from the spec: the IndexerJob flag set
`Complete | Crashed | Aborted | Dirty | Compile` (IndexerJob.h is not in
src/), one boolean per flag bit. -/
structure JobFlags where
  complete : Bool
  crashed : Bool
  aborted : Bool
  dirty : Bool
  compile : Bool
deriving DecidableEq

/-- IndexerJob as the core sees it: the object identity (`id` models the
shared_ptr address compared by `j != job`), its flags and the set of
fileIds it has claimed via `visitFile`. -/
structure IndexerJob where
  id : Nat
  flags : JobFlags
  visited : Finset Nat
deriving DecidableEq

/-- IndexData: the per-translation-unit delta of one finished job
(IndexData.h is not in src/; the fields and their types are those the spec
lists and Project.cpp consumes). -/
structure IndexData where
  key : Nat
  fileId : Nat
  parseTime : Nat
  flags : JobFlags
  symbols : List (Loc × SymRec)
  symbolNames : List (Str × Finset Loc)
  targets : List (Loc × List (Loc × Nat))
  references : List (Loc × Finset Loc)
  usrs : List (Str × List (Loc × Nat))
  dependencies : List (Nat × Finset Nat)
  pendingReferenceMap : List (Str × List (Loc × Nat))
  fixIts : List (Nat × Finset Nat)
deriving DecidableEq

/-- Project lifecycle states (Project.h). -/
inductive PState
  | unloaded
  | loaded
  | syncing
deriving DecidableEq

/-- Core state of a Project: the persistent tables (association lists), the
in-memory maps and the lifecycle state.  `generalVisitedFiles` is the
serialized `visitedFiles` blob the General table holds under the key
"visitedFiles"; paths are carried as numeric ids. -/
structure ProjectState where
  state : PState
  symbols : List (Loc × SymRec)
  symbolNames : List (Str × Finset Loc)
  usr : List (Str × List (Loc × Nat))
  dependencies : List (Nat × Finset Nat)
  sources : List (Nat × Source)
  references : List (Loc × Finset Loc)
  targets : List (Loc × List (Loc × Nat))
  generalVisitedFiles : Option (List (Nat × Nat))
  visitedFiles : List (Nat × Nat)
  activeJobs : List (Nat × IndexerJob)
  indexData : List (Nat × IndexData)
  pendingIndexData : List (Nat × (IndexerJob × IndexData))
  pendingJobs : List IndexerJob
  dirtyFiles : Finset Nat
  fixIts : List (Nat × Finset Nat)
  jobCounter : Nat
deriving DecidableEq

/-- Embeds `Project::releaseFileIds` (Project.h): remove every released
fileId's binding from `visitedFiles`. -/
def releaseFileIds (visitedFiles : List (Nat × Nat)) (fileIds : Finset Nat) :
    List (Nat × Nat) :=
  visitedFiles.filter (fun kv => kv.1 ∉ fileIds)

/-- Embeds `Project::onJobFinished` (Project.cpp:438-507).  During a sync the
result is stashed in `pendingIndexData`.  In `Loaded` the job is taken out of
`activeJobs` before the instance comparison; a missing or different instance
is logged and dropped.  On a non-`Complete` job the visited fileIds are
released; then the Source row is looked up (absent: logged and dropped), the
IndexData is buffered into `indexData`, and only a `Complete` job stamps
`source.parsed = indexData.parseTime`.  (Timers, progress logging and the
sync-threshold trigger have no core-state effect and are not modelled.) -/
def Project.onJobFinished (st : ProjectState) (job : IndexerJob) (data : IndexData) :
    ProjectState :=
  if st.state = PState.syncing then
    { st with pendingIndexData := aset data.key (job, data) st.pendingIndexData }
  else if st.state ≠ PState.loaded then st
  else
    let taken := atake data.key st.activeJobs
    match taken.1 with
    | none => { st with activeJobs := taken.2 }
    | some j =>
      if j.id ≠ job.id then { st with activeJobs := taken.2 }
      else
        let success := job.flags.complete
        let st1 := { st with activeJobs := taken.2 }
        let st2 :=
          if success then st1
          else { st1 with visitedFiles := releaseFileIds st1.visitedFiles job.visited }
        match alookup data.key st2.sources with
        | none => st2
        | some src =>
          let st3 := { st2 with indexData := aset data.key data st2.indexData }
          if success then
            { st3 with sources := aset data.key { src with parsed := data.parseTime } st3.sources }
          else st3

/-- Helper: erasing an absent key is the identity. -/
theorem aerase_of_alookup_none {κ ν : Type} [DecidableEq κ] {k : κ} :
    ∀ {l : List (κ × ν)}, alookup k l = none → aerase k l = l := by
  intro l
  induction l with
  | nil => intro _; rfl
  | cons kv rest ih =>
    intro h
    simp only [alookup] at h
    simp only [aerase]
    split
    · rename_i he; rw [he] at h; simp at h
    · rename_i he
      rw [if_neg he] at h
      rw [ih h]

/-- C5 amended: a stale completion in `Loaded` is dropped without touching
any persistent table, the indexData buffer or visitedFiles — but the code
takes the entry out of `activeJobs` before comparing instances, so when a
different IndexerJob is currently tracked under `indexData.key`, that
tracked job is removed from `activeJobs`; when no entry exists under the
key, the state is fully unchanged. -/
theorem onJobFinished_stale (st : ProjectState) (job : IndexerJob) (data : IndexData)
    (hstate : st.state = PState.loaded) :
    (alookup data.key st.activeJobs = none → Project.onJobFinished st job data = st) ∧
      (∀ j, alookup data.key st.activeJobs = some j → j.id ≠ job.id →
        Project.onJobFinished st job data =
          { st with activeJobs := aerase data.key st.activeJobs }) := by
  rcases st with ⟨sSt, sSym, sNames, sUsr, sDeps, sSrc, sRefs, sTgts, sGen, sVis, sAJ,
    sIdx, sPIdx, sPJ, sDirty, sFix, sJC⟩
  simp only at hstate
  subst hstate
  constructor
  · intro hnone
    simp only at hnone
    have hA := aerase_of_alookup_none (k := data.key) (l := sAJ) hnone
    simp [Project.onJobFinished, atake, hnone, hA]
  · intro j hsome hne
    simp only at hsome
    simp [Project.onJobFinished, atake, hsome, hne]

/-- C5 witness: a concrete stale completion — key tracked by a different
instance — applied through the theorem. -/
theorem onJobFinished_stale_witness :
    Project.onJobFinished
        { state := PState.loaded, symbols := [], symbolNames := [], usr := [],
          dependencies := [], sources := [], references := [], targets := [],
          generalVisitedFiles := none, visitedFiles := [],
          activeJobs := [(3, { id := 2, flags := ⟨false, false, false, false, false⟩, visited := ∅ })],
          indexData := [], pendingIndexData := [], pendingJobs := [], dirtyFiles := ∅,
          fixIts := [], jobCounter := 0 }
        { id := 1, flags := ⟨true, false, false, false, false⟩, visited := ∅ }
        { key := 3, fileId := 1, parseTime := 0, flags := ⟨true, false, false, false, false⟩,
          symbols := [], symbolNames := [], targets := [], references := [], usrs := [],
          dependencies := [], pendingReferenceMap := [], fixIts := [] } =
      { state := PState.loaded, symbols := [], symbolNames := [], usr := [],
        dependencies := [], sources := [], references := [], targets := [],
        generalVisitedFiles := none, visitedFiles := [],
        activeJobs := aerase 3
          [(3, { id := 2, flags := ⟨false, false, false, false, false⟩, visited := ∅ })],
        indexData := [], pendingIndexData := [], pendingJobs := [], dirtyFiles := ∅,
        fixIts := [], jobCounter := 0 } :=
  (onJobFinished_stale _ _ _ rfl).2
    { id := 2, flags := ⟨false, false, false, false, false⟩, visited := ∅ }
    (by decide) (by decide)

/-- Concrete base state for the C1 scenario: one active job under the key
of fileId 1 / buildRootId 0, whose Source row is present, with one visited
file owned by the job. -/
def c1Job : IndexerJob :=
  { id := 1, flags := ⟨false, true, false, false, false⟩, visited := {5} }

/-- IndexData delivered by the crashed (non-`Complete`) C1 job: it carries
one symbol record. -/
def c1Data : IndexData :=
  { key := sourceKey 1 0, fileId := 1, parseTime := 10,
    flags := ⟨false, true, false, false, false⟩,
    symbols := [(⟨1, 1, 1⟩, { kind := 8, definition := true, bestTargetNonNullDecl := false })],
    symbolNames := [], targets := [], references := [], usrs := [],
    dependencies := [], pendingReferenceMap := [], fixIts := [] }

/-- Project state receiving the C1 completion. -/
def c1State : ProjectState :=
  { state := PState.loaded, symbols := [], symbolNames := [], usr := [],
    dependencies := [],
    sources := [(sourceKey 1 0, { fileId := 1, buildRootId := 0, flags := 1, parsed := 0, args := 0 })],
    references := [], targets := [], generalVisitedFiles := none,
    visitedFiles := [(5, 55)], activeJobs := [(sourceKey 1 0, c1Job)],
    indexData := [], pendingIndexData := [], pendingJobs := [], dirtyFiles := ∅,
    fixIts := [], jobCounter := 1 }

/-- C1 amended: in `Loaded`, a tracked job finishing without `Complete` has
its visited fileIds released and no persistent table is written during the
call — in particular `parsed` is not stamped.  When the Source row under
`indexData.key` exists (Project.cpp:468-471 passes), the IndexData is
nonetheless buffered into the `indexData` map, and is therefore merged by a
later sync; when the Source row is absent, the lookup returns before the
buffering and the event is dropped with only the release performed. -/
theorem onJobFinished_incomplete_buffers (st : ProjectState) (job : IndexerJob)
    (data : IndexData)
    (hstate : st.state = PState.loaded)
    (hjob : alookup data.key st.activeJobs = some job)
    (hflags : job.flags.complete = false) :
    (∀ src, alookup data.key st.sources = some src →
        Project.onJobFinished st job data =
          { st with activeJobs := aerase data.key st.activeJobs,
                    visitedFiles := releaseFileIds st.visitedFiles job.visited,
                    indexData := aset data.key data st.indexData }) ∧
      (alookup data.key st.sources = none →
        Project.onJobFinished st job data =
          { st with activeJobs := aerase data.key st.activeJobs,
                    visitedFiles := releaseFileIds st.visitedFiles job.visited }) := by
  rcases st with ⟨sSt, sSym, sNames, sUsr, sDeps, sSrc, sRefs, sTgts, sGen, sVis, sAJ,
    sIdx, sPIdx, sPJ, sDirty, sFix, sJC⟩
  simp only at hstate hjob
  subst hstate
  constructor
  · intro src hsrc
    simp only at hsrc
    simp [Project.onJobFinished, atake, hjob, hflags, hsrc]
  · intro hsrc
    simp only at hsrc
    simp [Project.onJobFinished, atake, hjob, hflags, hsrc]

/-- C1 witness: the concrete crashed completion whose Source row is present,
through the theorem's first branch. -/
theorem onJobFinished_incomplete_buffers_witness :
    Project.onJobFinished c1State c1Job c1Data =
      { c1State with activeJobs := aerase c1Data.key c1State.activeJobs,
                     visitedFiles := releaseFileIds c1State.visitedFiles c1Job.visited,
                     indexData := aset c1Data.key c1Data c1State.indexData } :=
  (onJobFinished_incomplete_buffers c1State c1Job c1Data rfl (by decide) rfl).1
    { fileId := 1, buildRootId := 0, flags := 1, parsed := 0, args := 0 } (by decide)

/-- Currently tracked job of the C5 stale-completion scenario. -/
def c5Tracked : IndexerJob :=
  { id := 2, flags := ⟨false, false, false, false, false⟩, visited := ∅ }

/-- Stale job instance delivering the C5 completion (a different object than
the tracked one under the same key). -/
def c5Stale : IndexerJob :=
  { id := 1, flags := ⟨true, false, false, false, false⟩, visited := ∅ }

/-- IndexData of the C5 stale completion, keyed like the tracked job. -/
def c5Data : IndexData :=
  { key := 3, fileId := 1, parseTime := 0, flags := ⟨true, false, false, false, false⟩,
    symbols := [], symbolNames := [], targets := [], references := [], usrs := [],
    dependencies := [], pendingReferenceMap := [], fixIts := [] }

/-- Project state of the C5 scenario: key 3 is tracked by `c5Tracked`. -/
def c5State : ProjectState :=
  { state := PState.loaded, symbols := [], symbolNames := [], usr := [],
    dependencies := [], sources := [], references := [], targets := [],
    generalVisitedFiles := none, visitedFiles := [],
    activeJobs := [(3, c5Tracked)],
    indexData := [], pendingIndexData := [], pendingJobs := [], dirtyFiles := ∅,
    fixIts := [], jobCounter := 0 }

/-- C5 counterexample: before the stale completion the key is tracked, and
afterwards it is not — `onJobFinished` takes the entry out of `activeJobs`
before discovering the instance mismatch, so the tracked job does not remain
tracked and the in-memory `activeJobs` map is mutated. -/
theorem onJobFinished_stale_removes_tracked :
    alookup 3 c5State.activeJobs = some c5Tracked ∧
      alookup 3 (Project.onJobFinished c5State c5Stale c5Data).activeJobs = none := by
  constructor
  · decide
  · decide

/-- Symbols-table purge.  Modelled from the spec: `RTags::dirtySymbols`
(RTags.cpp is not in src/) erases every Symbols row whose key Location lies
in a dirtied file. -/
def dirtySymbolsT (t : List (Loc × SymRec)) (dirty : Finset Nat) : List (Loc × SymRec) :=
  t.filter (fun kv => kv.1.fileId ∉ dirty)

/-- SymbolNames-table purge.  Modelled from the spec: `RTags::dirtySymbolNames`
(RTags.cpp is not in src/) strips dirtied Locations from every value set and
erases rows left empty. -/
def dirtySymbolNamesT (t : List (Str × Finset Loc)) (dirty : Finset Nat) :
    List (Str × Finset Loc) :=
  (t.map (fun kv => (kv.1, kv.2.filter (fun l => l.fileId ∉ dirty)))).filter
    (fun kv => kv.2 ≠ ∅)

/-- Usr-table purge.  Modelled from the spec: `RTags::dirtyUsr` (RTags.cpp is
not in src/) strips dirtied Locations from every value map and erases rows
left empty. -/
def dirtyUsrT (t : List (Str × List (Loc × Nat))) (dirty : Finset Nat) :
    List (Str × List (Loc × Nat)) :=
  (t.map (fun kv => (kv.1, kv.2.filter (fun ln => ln.1.fileId ∉ dirty)))).filter
    (fun kv => kv.2 ≠ [])

/-- References-table purge.  Modelled from the spec: `RTags::dirtyReferences`
(RTags.cpp is not in src/) erases rows keyed in a dirtied file, strips
dirtied Locations from the remaining value sets and erases rows left
empty. -/
def dirtyReferencesT (t : List (Loc × Finset Loc)) (dirty : Finset Nat) :
    List (Loc × Finset Loc) :=
  ((t.filter (fun kv => kv.1.fileId ∉ dirty)).map
      (fun kv => (kv.1, kv.2.filter (fun l => l.fileId ∉ dirty)))).filter
    (fun kv => kv.2 ≠ ∅)

/-- Targets-table purge.  Modelled from the spec: `RTags::dirtyTargets`
(RTags.cpp is not in src/), the map-valued analogue of the References
purge. -/
def dirtyTargetsT (t : List (Loc × List (Loc × Nat))) (dirty : Finset Nat) :
    List (Loc × List (Loc × Nat)) :=
  ((t.filter (fun kv => kv.1.fileId ∉ dirty)).map
      (fun kv => (kv.1, kv.2.filter (fun ln => ln.1.fileId ∉ dirty)))).filter
    (fun kv => kv.2 ≠ [])

/-- Result of the erase loop of `Project::remove`. -/
structure RemoveOut where
  sources : List (Nat × Source)
  activeJobs : List (Nat × IndexerJob)
  indexData : List (Nat × IndexData)
  visitedFiles : List (Nat × Nat)
  dirty : Finset Nat
  count : Nat
deriving DecidableEq

/-- Erase loop of `Project::remove` (Project.cpp:786-802): every Source
whose source file matches is erased; the 32-bit `fileId` — not the 64-bit
`Source::key()` the maps are keyed by — is then used to `take` from
`activeJobs` (releasing the taken job's fileIds and aborting it) and to
`remove` from `indexData`, and is collected into the dirty set. -/
def removeLoop (matchFn : Nat → Bool) :
    List (Nat × Source) → List (Nat × IndexerJob) → List (Nat × IndexData) →
    List (Nat × Nat) → Finset Nat → Nat → RemoveOut
  | [], aj, idx, vf, dirty, count =>
    { sources := [], activeJobs := aj, indexData := idx, visitedFiles := vf,
      dirty := dirty, count := count }
  | (k, s) :: rest, aj, idx, vf, dirty, count =>
    if matchFn s.fileId then
      let taken := atake s.fileId aj
      let vf2 :=
        match taken.1 with
        | some job => releaseFileIds vf job.visited
        | none => vf
      removeLoop matchFn rest taken.2 (aerase s.fileId idx) vf2
        (insert s.fileId dirty) (count + 1)
    else
      let r := removeLoop matchFn rest aj idx vf dirty count
      { r with sources := (k, s) :: r.sources }

/-- Embeds `Project::remove` (Project.cpp:782-817): run the erase loop and,
when anything was erased, purge the collected fileIds from the five
symbol-family tables under one batch of write scopes; return the count.
`matchFn` is the path-match predicate applied to the Source's source file,
expressed on its fileId (path and fileId are in bijection). -/
def Project.remove (matchFn : Nat → Bool) (st : ProjectState) : ProjectState × Nat :=
  let r := removeLoop matchFn st.sources st.activeJobs st.indexData st.visitedFiles ∅ 0
  let st2 := { st with sources := r.sources, activeJobs := r.activeJobs,
                       indexData := r.indexData, visitedFiles := r.visitedFiles }
  if r.count ≠ 0 then
    ({ st2 with symbols := dirtySymbolsT st2.symbols r.dirty,
                references := dirtyReferencesT st2.references r.dirty,
                targets := dirtyTargetsT st2.targets r.dirty,
                symbolNames := dirtySymbolNamesT st2.symbolNames r.dirty,
                usr := dirtyUsrT st2.usr r.dirty }, r.count)
  else (st2, r.count)

/-- Active job of the C4 scenario, tracked under `sourceKey 1 1`. -/
def c4Job : IndexerJob :=
  { id := 4, flags := ⟨false, false, false, false, true⟩, visited := {5} }

/-- Buffered IndexData of the C4 scenario, keyed by `sourceKey 1 1`. -/
def c4Data : IndexData :=
  { key := sourceKey 1 1, fileId := 1, parseTime := 0,
    flags := ⟨true, false, false, false, false⟩,
    symbols := [], symbolNames := [], targets := [], references := [], usrs := [],
    dependencies := [], pendingReferenceMap := [], fixIts := [] }

/-- Project state of the C4 scenario: one Source for fileId 1 / buildRootId
1, whose job and buffered IndexData sit under the 64-bit key. -/
def c4State : ProjectState :=
  { state := PState.loaded, symbols := [], symbolNames := [], usr := [],
    dependencies := [],
    sources := [(sourceKey 1 1, { fileId := 1, buildRootId := 1, flags := 1, parsed := 0, args := 0 })],
    references := [], targets := [], generalVisitedFiles := none,
    visitedFiles := [(5, 55)], activeJobs := [(sourceKey 1 1, c4Job)],
    indexData := [(sourceKey 1 1, c4Data)], pendingIndexData := [], pendingJobs := [],
    dirtyFiles := ∅, fixIts := [], jobCounter := 1 }

/-- C4: removing the (matching) only Source erases it and returns count 1,
but the active job is still tracked and its IndexData still buffered
afterwards, and its visited fileId is still owned — the lookups used the
32-bit fileId 1 against maps keyed by the 64-bit `sourceKey 1 1`, so they
missed. -/
theorem remove_misses_job_maps :
    (Project.remove (fun _ => true) c4State).2 = 1 ∧
      (Project.remove (fun _ => true) c4State).1.sources = [] ∧
      alookup (sourceKey 1 1) (Project.remove (fun _ => true) c4State).1.activeJobs
        = some c4Job ∧
      alookup (sourceKey 1 1) (Project.remove (fun _ => true) c4State).1.indexData
        = some c4Data ∧
      (Project.remove (fun _ => true) c4State).1.visitedFiles = [(5, 55)] := by
  refine ⟨by decide, by decide, by decide, by decide, by decide⟩

/-- Embeds `uniteSet` (Project.cpp:674-696): the union of the stored and the
new set, together with the number of genuinely new elements (the caller
writes the union only when that count is non-zero). -/
def uniteSet {α : Type} [DecidableEq α] (original newValues : Finset α) :
    Finset α × Nat :=
  (original ∪ newValues, (newValues \ original).card)

/-- Embeds `uniteMap` (Project.cpp:698-720) and rct `Map::unite`: insert the
new bindings whose keys are absent (existing keys keep their value), counting
the insertions. -/
def uniteMap {κ ν : Type} [DecidableEq κ] (original newValues : List (κ × ν)) :
    List (κ × ν) × Nat :=
  newValues.foldl (fun acc kv =>
    match alookup kv.1 acc.1 with
    | some _ => acc
    | none => (acc.1 ++ [kv], acc.2 + 1)) (original, 0)

/-- Embeds `Project::addDependencies` (Project.cpp:722-745): merge each
per-TU dependency row into the Dependencies table with `uniteSet`, and
accumulate every key and every element of every value set into `newFiles`. -/
def addDependencies (deps table : List (Nat × Finset Nat)) (newFiles : Finset Nat) :
    List (Nat × Finset Nat) × Finset Nat :=
  deps.foldl (fun acc kv =>
    let t :=
      match alookup kv.1 acc.1 with
      | none => aset kv.1 kv.2 acc.1
      | some cur =>
        let mc := uniteSet cur kv.2
        if mc.2 ≠ 0 then aset kv.1 mc.1 acc.1 else acc.1
    (t, (if acc.2 = ∅ then kv.2 else acc.2 ∪ kv.2) ∪ {kv.1})) (table, newFiles)

/-- Embeds `Project::addFixIts` (Project.cpp:1062-1072): for every file of
the TU, replace its fix-it set by the delivered one or clear it. -/
def addFixIts (visited dataFixIts fixIts : List (Nat × Finset Nat)) :
    List (Nat × Finset Nat) :=
  visited.foldl (fun fx kv =>
    match alookup kv.1 dataFixIts with
    | none => aerase kv.1 fx
    | some v => aset kv.1 v fx) fixIts

/-- Embeds `uniteUnite` (Project.cpp:977-989) for `Set`-valued memory maps:
if the accumulator started empty each row is assigned, otherwise each row is
united into the (possibly default-constructed) entry. -/
def uniteUniteSet {κ α : Type} [DecidableEq κ] [DecidableEq α]
    (current newValues : List (κ × Finset α)) : List (κ × Finset α) :=
  let wasEmpty := current.isEmpty
  newValues.foldl (fun cur kv =>
    if wasEmpty then aset kv.1 kv.2 cur
    else aset kv.1 (((alookup kv.1 cur).getD ∅) ∪ kv.2) cur) current

/-- Embeds `uniteUnite` (Project.cpp:977-989) for `Map`-valued memory maps. -/
def uniteUniteMap {κ κ2 ν : Type} [DecidableEq κ] [DecidableEq κ2]
    (current newValues : List (κ × List (κ2 × ν))) : List (κ × List (κ2 × ν)) :=
  let wasEmpty := current.isEmpty
  newValues.foldl (fun cur kv =>
    if wasEmpty then aset kv.1 kv.2 cur
    else aset kv.1 (uniteMap ((alookup kv.1 cur).getD []) kv.2).1 cur) current

/-- Embeds `writeSymbols` (Project.cpp:963-975): every delivered symbol is
set into the Symbols table, later records overwriting earlier ones. -/
def writeSymbols (symbols current : List (Loc × SymRec)) :
    List (Loc × SymRec) × Nat :=
  symbols.foldl (fun acc kv => (aset kv.1 kv.2 acc.1, acc.2 + 1)) (current, 0)

/-- Embeds `writeSymbolNames` (Project.cpp:856-878): absent keys are set;
present keys are united and written back only when the union grew. -/
def writeSymbolNames (symbolNames current : List (Str × Finset Loc)) :
    List (Str × Finset Loc) × Nat :=
  symbolNames.foldl (fun acc kv =>
    match alookup kv.1 acc.1 with
    | none => (aset kv.1 kv.2 acc.1, acc.2)
    | some cur =>
      let mc := uniteSet cur kv.2
      if mc.2 ≠ 0 then (aset kv.1 mc.1 acc.1, acc.2 + mc.2) else acc) (current, 0)

/-- Embeds `joinCursors` (Project.cpp:881-892): every pair of distinct
locations sharing a USR receives a bidirectional entry in the targets
memory map. -/
def joinCursors (targets : List (Loc × List (Loc × Nat)))
    (locations : List (Loc × Nat)) : List (Loc × List (Loc × Nat)) :=
  locations.foldl (fun tgt la =>
    let t := (alookup la.1 tgt).getD []
    let t2 := locations.foldl
      (fun acc ib => if la.1 ≠ ib.1 then aset ib.1 ib.2 acc else acc) t
    aset la.1 t2 tgt) targets

/-- Embeds `writeUsr` (Project.cpp:894-917): absent USRs are set, present
ones merged with `uniteMap` and written back only when grown; any resulting
multi-location value is cross-joined into the targets memory map. -/
def writeUsr (usr current : List (Str × List (Loc × Nat)))
    (targets : List (Loc × List (Loc × Nat))) :
    List (Str × List (Loc × Nat)) × List (Loc × List (Loc × Nat)) :=
  usr.foldl (fun acc it =>
    match alookup it.1 acc.1 with
    | none =>
      (aset it.1 it.2 acc.1,
        if it.2.length > 1 then joinCursors acc.2 it.2 else acc.2)
    | some cur =>
      let mc := uniteMap cur it.2
      if mc.2 ≠ 0 then
        (aset it.1 mc.1 acc.1,
          if mc.1.length > 1 then joinCursors acc.2 mc.1 else acc.2)
      else acc) (current, targets)

/-- Modelled from the spec: `RTags::isCursor` (RTags.h is not in src/)
classifies declaration-like cursor kinds (as opposed to reference kinds);
the model admits the clang declaration kinds and macro definitions.  No
theorem below depends on the table's exact extension. -/
def isCursorKind (kind : Nat) : Bool :=
  decide ((1 ≤ kind ∧ kind ≤ 39) ∨ kind = 501)

/-- Modelling `String::lastIndexOf(pattern)`: the last index at which the
pattern occurs, if any. -/
def lastIndexOfPat (pat s : List Char) : Option Nat :=
  ((List.range (s.length + 1)).filter (fun i => pat.isPrefixOf (s.drop i))).getLast?

/-- Modelling `String::replace(index, length, replacement)`. -/
def replaceRange (s : List Char) (i n : Nat) (repl : List Char) : List Char :=
  s.take i ++ repl ++ s.drop (i + n)

/-- Embeds `resolvePendingReferences` (Project.cpp:919-961).  For every
pending USR, the USR (and its Objective-C `(im)`→`(py)` rewrite, when the
string contains `(im)`) is looked up in the Usr table; each declaration
location found there must have a Symbols row (`symbols->value` returns a
null pointer otherwise, which the code dereferences — modelled as the error
case); cursor-kind rows become targets, and every pending reference location
is cross-linked with every target into the memory maps. -/
def resolvePendingReferences (symbols : List (Loc × SymRec))
    (usrs : List (Str × List (Loc × Nat)))
    (pendingRefs : List (Str × List (Loc × Nat)))
    (acc0 : List (Loc × List (Loc × Nat)) × List (Loc × Finset Loc)) :
    Except Unit (List (Loc × List (Loc × Nat)) × List (Loc × Finset Loc)) :=
  pendingRefs.foldlM (fun acc ref => do
    let refUsrs : List Str :=
      match lastIndexOfPat ['(', 'i', 'm', ')'] ref.1 with
      | some i => [ref.1, replaceRange ref.1 i 4 ['(', 'p', 'y', ')']]
      | none => [ref.1]
    let targets ← refUsrs.foldlM (fun tacc refUsr =>
      match alookup refUsr usrs with
      | none => pure tacc
      | some usrVal =>
        usrVal.foldlM (fun tacc2 usrLoc =>
          match alookup usrLoc.1 symbols with
          | none => Except.error ()
          | some symbol =>
            pure (if isCursorKind symbol.kind then aset usrLoc.1 symbol tacc2 else tacc2))
          tacc) ([] : List (Loc × SymRec))
    if targets.isEmpty then pure acc
    else
      pure (ref.2.foldl (fun acc2 r =>
        targets.foldl (fun acc3 t =>
          (aset r.1 (aset t.1 t.2.kind ((alookup r.1 acc3.1).getD [])) acc3.1,
            aset t.1 (((alookup t.1 acc3.2).getD ∅) ∪ {r.1}) acc3.2)) acc2) acc)) acc0

/-- Loop of `writeReferencesOrTargets` (Project.cpp:991-1018), `Map`-valued
instantiation (the Targets table): identical shape, with rct `Map::unite`
supplying the count of new keys; the write again stores the incoming value. -/
def writeReferencesOrTargetsMapGo (wasEmpty : Bool) :
    List (Loc × List (Loc × Nat)) → List (Loc × List (Loc × Nat)) → Nat →
    List (Loc × List (Loc × Nat)) × Nat
  | [], db, ret => (db, ret)
  | val :: m, db, ret =>
    if wasEmpty then
      writeReferencesOrTargetsMapGo wasEmpty m (aset val.1 val.2 db) (ret + 1)
    else
      match alookup val.1 db with
      | none => writeReferencesOrTargetsMapGo wasEmpty m (aset val.1 val.2 db) (ret + 1)
      | some cur =>
        let count := (uniteMap cur val.2).2
        if count ≠ 0 then
          writeReferencesOrTargetsMapGo wasEmpty m (aset val.1 val.2 db) (ret + 1)
        else
          writeReferencesOrTargetsMapGo wasEmpty m db ret

/-- Embeds `writeReferencesOrTargets` (Project.cpp:991-1018) for the
`Map`-valued Targets table. -/
def writeReferencesOrTargetsMap (m db : List (Loc × List (Loc × Nat))) :
    List (Loc × List (Loc × Nat)) × Nat :=
  writeReferencesOrTargetsMapGo db.isEmpty m db 0

/-- Error values of the partial `sync`: the end-iterator dereference of the
merge loop on an empty `indexData` map, and the null-CursorInfo dereference
inside `resolvePendingReferences`. -/
inductive SyncErr
  | emptyIndexData
  | nullSymbol
deriving DecidableEq

/-- Accumulator of sync's merge loop (Project.cpp:1290-1326): the
Dependencies table and fixIts being updated in place, the merged Symbols and
SymbolNames tables, and the memory maps `allUsrs`, `allReferences`,
`allTargets`, the collected pendingReferenceMaps and `newFiles`. -/
structure SyncAcc where
  dependencies : List (Nat × Finset Nat)
  fixIts : List (Nat × Finset Nat)
  allUsrs : List (Str × List (Loc × Nat))
  symbols : List (Loc × SymRec)
  symbolNames : List (Str × Finset Loc)
  allReferences : List (Loc × Finset Loc)
  allTargets : List (Loc × List (Loc × Nat))
  pendingReferences : List (List (Str × List (Loc × Nat)))
  newFiles : Finset Nat
deriving DecidableEq

/-- Body of the merge loop of `Project::sync` for one IndexData
(Project.cpp:1302-1313). -/
def syncStep (acc : SyncAcc) (kv : Nat × IndexData) : SyncAcc :=
  let data := kv.2
  let ad := addDependencies data.dependencies acc.dependencies acc.newFiles
  { dependencies := ad.1
    fixIts := addFixIts data.dependencies data.fixIts acc.fixIts
    allUsrs := uniteUniteMap acc.allUsrs data.usrs
    symbols := (writeSymbols data.symbols acc.symbols).1
    symbolNames := (writeSymbolNames data.symbolNames acc.symbolNames).1
    allReferences := uniteUniteSet acc.allReferences data.references
    allTargets := uniteUniteMap acc.allTargets data.targets
    pendingReferences :=
      if data.pendingReferenceMap ≠ [] then
        acc.pendingReferences ++ [data.pendingReferenceMap]
      else acc.pendingReferences
    newFiles := ad.2 }

/-- Dirty phase of `Project::sync` (Project.cpp:1274-1287): when
`dirtyFiles` is non-empty, purge every dirtied fileId from the five
symbol-family tables under write scopes and clear the set. -/
def syncDirtyPhase (st : ProjectState) : ProjectState :=
  if st.dirtyFiles = ∅ then st
  else
    { st with symbols := dirtySymbolsT st.symbols st.dirtyFiles,
              references := dirtyReferencesT st.references st.dirtyFiles,
              targets := dirtyTargetsT st.targets st.dirtyFiles,
              symbolNames := dirtySymbolNamesT st.symbolNames st.dirtyFiles,
              usr := dirtyUsrT st.usr st.dirtyFiles,
              dirtyFiles := ∅ }

/-- Resolution pass over the collected pendingReferenceMaps
(Project.cpp:1320-1321). -/
def resolveAll (symbols : List (Loc × SymRec)) (usrT : List (Str × List (Loc × Nat)))
    (pending : List (List (Str × List (Loc × Nat))))
    (acc : List (Loc × List (Loc × Nat)) × List (Loc × Finset Loc)) :
    Except Unit (List (Loc × List (Loc × Nat)) × List (Loc × Finset Loc)) :=
  pending.foldlM (fun a pr => resolvePendingReferences symbols usrT pr a) acc

/-- Embeds `Project::sync` (Project.cpp:1265-1358).  `mJobCounter` is
reassigned, then the early return fires only when both `dirtyFiles` and
`indexData` are empty; the dirty purge runs; the merge loop then reads
`it->second` from `indexData.begin()` without an emptiness check — the
end-iterator dereference on an empty map is the `emptyIndexData` error —
and on the last element writes the Usr table, resolves pending references,
commits `allReferences`/`allTargets`, persists `visitedFiles` into the
General table and clears `indexData`.  (Directory watching and the external
file-id save have no core-table effect and are not modelled.) -/
def Project.sync (st : ProjectState) : Except SyncErr ProjectState :=
  let st0 := { st with jobCounter := st.activeJobs.length }
  if st0.dirtyFiles = ∅ ∧ st0.indexData = [] then Except.ok st0
  else
    let st1 := syncDirtyPhase st0
    match st1.indexData with
    | [] => Except.error SyncErr.emptyIndexData
    | _ :: _ =>
      let acc := st1.indexData.foldl syncStep
        { dependencies := st1.dependencies, fixIts := st1.fixIts, allUsrs := [],
          symbols := st1.symbols, symbolNames := st1.symbolNames,
          allReferences := [], allTargets := [], pendingReferences := [],
          newFiles := ∅ }
      let wu := writeUsr acc.allUsrs st1.usr acc.allTargets
      match resolveAll acc.symbols wu.1 acc.pendingReferences (wu.2, acc.allReferences) with
      | Except.error _ => Except.error SyncErr.nullSymbol
      | Except.ok tr =>
        Except.ok { st1 with
          symbols := acc.symbols,
          symbolNames := acc.symbolNames,
          usr := wu.1,
          dependencies := acc.dependencies,
          references := (writeReferencesOrTargets tr.2 st1.references).1,
          targets := (writeReferencesOrTargetsMap tr.1 st1.targets).1,
          fixIts := acc.fixIts,
          generalVisitedFiles := some st1.visitedFiles,
          indexData := [] }

/-- Embeds `Project::unload` (Project.cpp:373-411): a no-op outside
`Loaded` (during `Syncing` it only re-arms a retry timer); in `Loaded` all
active jobs are aborted at the scheduler, the final `sync` runs, and then
`activeJobs` and `visitedFiles` are cleared, the table handles closed, and
the state becomes `Unloaded`. -/
def Project.unload (st : ProjectState) : Except SyncErr ProjectState :=
  match st.state with
  | PState.unloaded => Except.ok st
  | PState.syncing => Except.ok st
  | PState.loaded =>
    match Project.sync st with
    | Except.error e => Except.error e
    | Except.ok st1 =>
      Except.ok { st1 with activeJobs := [], visitedFiles := [],
                           state := PState.unloaded }

/-- Helper: the dirty phase leaves `indexData` untouched. -/
theorem syncDirtyPhase_indexData (st : ProjectState) :
    (syncDirtyPhase st).indexData = st.indexData := by
  unfold syncDirtyPhase; split <;> rfl

/-- Helper: the dirty phase always ends with an empty dirty set. -/
theorem syncDirtyPhase_dirtyFiles (st : ProjectState) :
    (syncDirtyPhase st).dirtyFiles = ∅ := by
  unfold syncDirtyPhase
  split
  · assumption
  · rfl

/-- C10: `sync` is total exactly under the precondition that `indexData` is
non-empty or `dirtyFiles` is empty — past the early return the merge loop
dereferences `indexData.begin()` unconditionally, so a call with
`dirtyFiles` non-empty and `indexData` empty (reachable through `unload`'s
final sync, second conjunct) performs the end-iterator access. -/
theorem sync_oob_characterisation :
    (∀ st : ProjectState,
        Project.sync st = Except.error SyncErr.emptyIndexData ↔
          st.dirtyFiles ≠ ∅ ∧ st.indexData = []) ∧
      ∀ st : ProjectState, st.state = PState.loaded → st.dirtyFiles ≠ ∅ →
        st.indexData = [] → Project.unload st = Except.error SyncErr.emptyIndexData := by
  have main : ∀ st : ProjectState,
      Project.sync st = Except.error SyncErr.emptyIndexData ↔
        st.dirtyFiles ≠ ∅ ∧ st.indexData = [] := by
    intro st
    unfold Project.sync
    dsimp only
    by_cases hc : st.dirtyFiles = ∅ ∧ st.indexData = []
    · rw [if_pos hc]
      constructor
      · intro h; exact Except.noConfusion h
      · rintro ⟨hne, _⟩; exact absurd hc.1 hne
    · rw [if_neg hc]
      rw [show (syncDirtyPhase { st with jobCounter := st.activeJobs.length }).indexData
            = st.indexData from syncDirtyPhase_indexData _]
      cases hI : st.indexData with
      | nil =>
        constructor
        · intro _
          refine ⟨fun hd => hc ⟨hd, hI⟩, rfl⟩
        · intro _; rfl
      | cons head tail =>
        dsimp only
        constructor
        · intro h
          exfalso
          revert h
          split
          · intro h
            simp at h
          · intro h
            simp at h
        · rintro ⟨_, hnil⟩
          exact List.noConfusion hnil
  refine ⟨main, ?_⟩
  intro st hstate hd hi
  unfold Project.unload
  rw [hstate]
  rw [(main st).mpr ⟨hd, hi⟩]

/-- C10 witness state: loaded, one dirtied file, no buffered IndexData. -/
def c10State : ProjectState :=
  { state := PState.loaded, symbols := [], symbolNames := [], usr := [],
    dependencies := [], sources := [], references := [], targets := [],
    generalVisitedFiles := none, visitedFiles := [], activeJobs := [],
    indexData := [], pendingIndexData := [], pendingJobs := [], dirtyFiles := {1},
    fixIts := [], jobCounter := 0 }

/-- C10 witness: on the concrete state both `sync` and `unload` hit the
end-iterator dereference, through the theorem. -/
theorem sync_oob_characterisation_witness :
    Project.sync c10State = Except.error SyncErr.emptyIndexData ∧
      Project.unload c10State = Except.error SyncErr.emptyIndexData :=
  ⟨(sync_oob_characterisation.1 c10State).mpr (by decide),
    sync_oob_characterisation.2 c10State rfl (by decide) rfl⟩

instance {ε α : Type} [DecidableEq ε] [DecidableEq α] : DecidableEq (Except ε α) := fun x y =>
  match x, y with
  | Except.ok a, Except.ok b =>
    if h : a = b then isTrue (by rw [h]) else isFalse (fun he => h (Except.ok.inj he))
  | Except.error a, Except.error b =>
    if h : a = b then isTrue (by rw [h]) else isFalse (fun he => h (Except.error.inj he))
  | Except.ok _, Except.error _ => isFalse (fun he => Except.noConfusion he)
  | Except.error _, Except.ok _ => isFalse (fun he => Except.noConfusion he)

/-- Absence of any row keyed by — or valued with — a fileId across the five
symbol-family tables of a state. -/
def noSymbolFamilyRows (f : Nat) (st : ProjectState) : Prop :=
  (∀ kv ∈ st.symbols, kv.1.fileId ≠ f) ∧
    (∀ kv ∈ st.symbolNames, ∀ l ∈ kv.2, l.fileId ≠ f) ∧
    (∀ kv ∈ st.usr, ∀ ln ∈ kv.2, ln.1.fileId ≠ f) ∧
    (∀ kv ∈ st.references, kv.1.fileId ≠ f ∧ ∀ l ∈ kv.2, l.fileId ≠ f) ∧
    (∀ kv ∈ st.targets, kv.1.fileId ≠ f ∧ ∀ ln ∈ kv.2, ln.1.fileId ≠ f)

/-- Helper: the Symbols purge leaves no row keyed in a dirtied file. -/
theorem dirtySymbolsT_clean (t : List (Loc × SymRec)) (dirty : Finset Nat) (f : Nat)
    (hf : f ∈ dirty) : ∀ kv ∈ dirtySymbolsT t dirty, kv.1.fileId ≠ f := by
  intro kv hkv he
  simp only [dirtySymbolsT, List.mem_filter, decide_eq_true_eq] at hkv
  exact hkv.2 (he ▸ hf)

/-- Helper: the SymbolNames purge leaves no dirtied Location in any value. -/
theorem dirtySymbolNamesT_clean (t : List (Str × Finset Loc)) (dirty : Finset Nat)
    (f : Nat) (hf : f ∈ dirty) :
    ∀ kv ∈ dirtySymbolNamesT t dirty, ∀ l ∈ kv.2, l.fileId ≠ f := by
  intro kv hkv l hl he
  simp only [dirtySymbolNamesT, List.mem_filter, List.mem_map] at hkv
  rcases hkv with ⟨⟨orig, _, horig⟩, _⟩
  rw [← horig] at hl
  simp only [Finset.mem_filter] at hl
  exact hl.2 (he ▸ hf)

/-- Helper: the Usr purge leaves no dirtied Location in any value. -/
theorem dirtyUsrT_clean (t : List (Str × List (Loc × Nat))) (dirty : Finset Nat)
    (f : Nat) (hf : f ∈ dirty) :
    ∀ kv ∈ dirtyUsrT t dirty, ∀ ln ∈ kv.2, ln.1.fileId ≠ f := by
  intro kv hkv ln hln he
  simp only [dirtyUsrT, List.mem_filter, List.mem_map] at hkv
  rcases hkv with ⟨⟨orig, _, horig⟩, _⟩
  rw [← horig] at hln
  simp only [List.mem_filter, decide_eq_true_eq] at hln
  exact hln.2 (he ▸ hf)

/-- Helper: the References purge leaves no dirtied fileId in keys or
values. -/
theorem dirtyReferencesT_clean (t : List (Loc × Finset Loc)) (dirty : Finset Nat)
    (f : Nat) (hf : f ∈ dirty) :
    ∀ kv ∈ dirtyReferencesT t dirty, kv.1.fileId ≠ f ∧ ∀ l ∈ kv.2, l.fileId ≠ f := by
  intro kv hkv
  simp only [dirtyReferencesT, List.mem_filter, List.mem_map, decide_eq_true_eq] at hkv
  rcases hkv with ⟨⟨orig, horigmem, horig⟩, _⟩
  have hkey := horigmem.2
  constructor
  · intro he
    rw [← horig] at he
    exact hkey (he ▸ hf)
  · intro l hl he
    rw [← horig] at hl
    simp only [Finset.mem_filter] at hl
    exact hl.2 (he ▸ hf)

/-- Helper: the Targets purge leaves no dirtied fileId in keys or values. -/
theorem dirtyTargetsT_clean (t : List (Loc × List (Loc × Nat))) (dirty : Finset Nat)
    (f : Nat) (hf : f ∈ dirty) :
    ∀ kv ∈ dirtyTargetsT t dirty, kv.1.fileId ≠ f ∧ ∀ ln ∈ kv.2, ln.1.fileId ≠ f := by
  intro kv hkv
  simp only [dirtyTargetsT, List.mem_filter, List.mem_map, decide_eq_true_eq] at hkv
  rcases hkv with ⟨⟨orig, horigmem, horig⟩, _⟩
  have hkey := horigmem.2
  constructor
  · intro he
    rw [← horig] at he
    exact hkey (he ▸ hf)
  · intro ln hln he
    rw [← horig] at hln
    simp only [List.mem_filter, decide_eq_true_eq] at hln
    exact hln.2 (he ▸ hf)

/-- C7: every successful `sync` ends with an empty `dirtyFiles`, and every
fileId that was dirty when the sync started has no row — keyed or valued —
in any of the five symbol-family tables at the state where the merge of the
buffered IndexData begins (the output of the dirty phase). -/
theorem sync_clears_and_purges (st st2 : ProjectState)
    (h : Project.sync st = Except.ok st2) :
    st2.dirtyFiles = ∅ ∧
      ∀ f ∈ st.dirtyFiles,
        noSymbolFamilyRows f
          (syncDirtyPhase { st with jobCounter := st.activeJobs.length }) := by
  constructor
  · unfold Project.sync at h
    dsimp only at h
    split_ifs at h with hc
    · have h2 := Except.ok.inj h
      rw [← h2]
      exact hc.1
    · revert h
      split
      · intro h; exact Except.noConfusion h
      · split
        · intro h; exact Except.noConfusion h
        · intro h
          have h2 := Except.ok.inj h
          rw [← h2]
          exact syncDirtyPhase_dirtyFiles _
  · intro f hf
    by_cases hd : st.dirtyFiles = ∅
    · rw [hd] at hf
      exact absurd hf (Finset.not_mem_empty f)
    · unfold syncDirtyPhase
      rw [if_neg hd]
      exact ⟨dirtySymbolsT_clean _ _ f hf, dirtySymbolNamesT_clean _ _ f hf,
        dirtyUsrT_clean _ _ f hf, dirtyReferencesT_clean _ _ f hf,
        dirtyTargetsT_clean _ _ f hf⟩

/-- IndexData buffered in the C7 witness state. -/
def c7Data : IndexData :=
  { key := sourceKey 2 0, fileId := 2, parseTime := 3,
    flags := ⟨true, false, false, false, false⟩,
    symbols := [(⟨2, 1, 1⟩, { kind := 8, definition := true, bestTargetNonNullDecl := false })],
    symbolNames := [], targets := [], references := [], usrs := [],
    dependencies := [], pendingReferenceMap := [], fixIts := [] }

/-- C7 witness state: fileId 3 is dirty and has rows in Symbols, SymbolNames
and References; one IndexData is buffered. -/
def c7State : ProjectState :=
  { state := PState.loaded,
    symbols := [(⟨3, 1, 1⟩, { kind := 9, definition := false, bestTargetNonNullDecl := false })],
    symbolNames := [(['f'], {⟨3, 1, 1⟩})],
    usr := [(['u'], [(⟨3, 1, 1⟩, 9)])],
    dependencies := [],
    sources := [],
    references := [(⟨3, 1, 1⟩, {⟨3, 2, 2⟩})],
    targets := [(⟨3, 1, 1⟩, [(⟨3, 2, 2⟩, 9)])],
    generalVisitedFiles := none, visitedFiles := [], activeJobs := [],
    indexData := [(sourceKey 2 0, c7Data)], pendingIndexData := [], pendingJobs := [],
    dirtyFiles := {3}, fixIts := [], jobCounter := 0 }

/-- Outcome of the C7 witness sync. -/
def c7Result : ProjectState :=
  match Project.sync c7State with
  | Except.ok s => s
  | Except.error _ => c7State

/-- C7 witness: the concrete sync, through the theorem. -/
theorem sync_clears_and_purges_witness :
    c7Result.dirtyFiles = ∅ ∧
      ∀ f ∈ c7State.dirtyFiles,
        noSymbolFamilyRows f
          (syncDirtyPhase { c7State with jobCounter := c7State.activeJobs.length }) :=
  sync_clears_and_purges c7State c7Result (by decide)

/-- C1 counterexample: the job lacked `Complete`, yet its IndexData — having
been buffered by `onJobFinished` — is merged by the next sync: the symbol
it carried is afterwards stored in the Symbols table. -/
theorem onJobFinished_incomplete_merged_at_sync :
    c1Job.flags.complete = false ∧
      (Project.sync (Project.onJobFinished c1State c1Job c1Data)).map
          (fun s => alookup ⟨1, 1, 1⟩ s.symbols)
        = Except.ok (some { kind := 8, definition := true, bestTargetNonNullDecl := false }) := by
  exact ⟨rfl, by decide⟩

end Rtags
